import Mathlib

/-!
Shallow embedding of the steady-state residual evaluators of
src/PKModel/functors/SS_system.hpp (SS_system_dd and SS_system_vd).
Machine doubles are modelled as exact rationals; vectors as lists.
The opaque ODE integrator and the compartmental right-hand-side function
are external collaborators, modelled as function-valued fields; every
integrator invocation is recorded in a trace so that call counts and
call arguments are provable facts.
-/

set_option linter.unusedVariables false

/-- Scalar values of the embedding: doubles modelled as exact rationals. -/
abbrev Scalar := ℚ

/-- A vector of compartment values (Eigen vectors and std::vector of doubles). -/
abbrev Vec := List Scalar

/-- Compartmental right-hand-side function: arguments are time, state,
parameters, rate data and integer data (the trailing ostream argument of the
source, always null here, is dropped). -/
abbrev RHS := Scalar → Vec → Vec → Vec → List ℤ → Vec

/-- Record of one invocation of the ODE integrator: initial state, initial
time, requested time span, parameters, rate data and integer data, in the
order the source passes them (the bound right-hand-side function is a fixed
field of the system and is not repeated here). -/
structure IntCall where
  x0 : Vec
  t0 : Scalar
  span : Scalar
  params : Vec
  rateData : Vec
  idata : List ℤ
deriving DecidableEq, Repr

/-- The integrator service: from an initial state, an initial time, one
requested span, parameters, rate data and integer data it produces the
predicted state at the end of the span (only one output time is ever
requested by the evaluators). -/
abbrev Integrator := Vec → Scalar → Scalar → Vec → Vec → List ℤ → Vec

/-- Failures raised through stan::math::invalid_argument in SS_system.hpp.
The infeasible-infusion failure carries the offending infusion duration
delta and the interdose-interval bound ii, as the source message does. -/
inductive SSError where
  | infeasibleInfusion (delta : Scalar) (ii : Scalar)
  | unsupportedRegime
deriving DecidableEq, Repr

/-- The three dosing regimes the dispatch can select. -/
inductive Regime where
  | bolus
  | truncated
  | constant
deriving DecidableEq, Repr

/-- Componentwise residual over the candidate-state length, matching the
source loop `for i < result.size, result(i) = x(i) - pred[i]` where result
was sized from x. -/
def residFrom (x pred : Vec) : Vec :=
  (List.range x.length).map (fun i => x.getD i 0 - pred.getD i 0)

/-- SS_system_dd: fixed-amount steady-state system. Fields are the
construction-time constants of the source struct: right-hand-side function,
interdose interval, 1-based dosing compartment index, integrator service. -/
structure SS_system_dd where
  f_ : RHS
  ii_ : Scalar
  cmt_ : ℕ
  integrator_ : Integrator

/-- Rate used for regime dispatch in the dd variant: `dat[cmt_ - 1]`. -/
def SS_system_dd.rate (s : SS_system_dd) (dat : Vec) : Scalar :=
  dat.getD (s.cmt_ - 1) 0

/-- Fixed dose amount in the dd variant: `dat[dat.size() - 1]`. -/
def SS_system_dd.amt (s : SS_system_dd) (dat : Vec) : Scalar :=
  dat.getD (dat.length - 1) 0

/-- Bolus branch of SS_system_dd: increment the dosing compartment of the
candidate state by the fixed amount, integrate once over span ii_, and
return the componentwise difference together with the one-call trace. -/
def SS_system_dd.bolus (s : SS_system_dd) (x y dat : Vec) (idat : List ℤ) :
    Vec × List IntCall :=
  (residFrom x
     (s.integrator_ (x.set (s.cmt_ - 1) (x.getD (s.cmt_ - 1) 0 + s.amt dat))
       0 s.ii_ y dat idat),
   [⟨x.set (s.cmt_ - 1) (x.getD (s.cmt_ - 1) 0 + s.amt dat),
     0, s.ii_, y, dat, idat⟩])

/-- Multiple-truncated-infusions branch of SS_system_dd: with
delta = amt / rate, fail when delta exceeds ii_; otherwise integrate over
span delta from x with the original data vector as rate input, then over
span ii_ - delta from that intermediate state with an all-zero rate vector
of length dat.length, and return the componentwise difference together with
the two-call trace. -/
def SS_system_dd.truncInfusion (s : SS_system_dd) (x y dat : Vec)
    (idat : List ℤ) : Except SSError (Vec × List IntCall) :=
  if s.ii_ < s.amt dat / s.rate dat then
    .error (.infeasibleInfusion (s.amt dat / s.rate dat) s.ii_)
  else
    .ok (residFrom x
           (s.integrator_
             (s.integrator_ x 0 (s.amt dat / s.rate dat) y dat idat)
             0 (s.ii_ - s.amt dat / s.rate dat) y
             (List.replicate dat.length 0) idat),
         [⟨x, 0, s.amt dat / s.rate dat, y, dat, idat⟩,
          ⟨s.integrator_ x 0 (s.amt dat / s.rate dat) y dat idat,
           0, s.ii_ - s.amt dat / s.rate dat, y,
           List.replicate dat.length 0, idat⟩])

/-- Constant-infusion branch of SS_system_dd: evaluate the right-hand-side
directly at time 0 on the candidate state, with the rate vector being the
first dat.length - 1 entries of dat (the rates without the trailing
amount); no integrator call is made. -/
def SS_system_dd.constInfusion (s : SS_system_dd) (x y dat : Vec)
    (idat : List ℤ) : Vec × List IntCall :=
  (s.f_ 0 x y (dat.take (dat.length - 1)) idat, [])

/-- The dd evaluation: dispatch on `rate == 0`, then `ii_ > 0`, into the
three branches, exactly as the source operator does. -/
def SS_system_dd.eval (s : SS_system_dd) (x y dat : Vec) (idat : List ℤ) :
    Except SSError (Vec × List IntCall) :=
  if s.rate dat = 0 then .ok (s.bolus x y dat idat)
  else if 0 < s.ii_ then s.truncInfusion x y dat idat
  else .ok (s.constInfusion x y dat idat)

/-- The regime the dd dispatch selects, read off the same two tests. -/
def SS_system_dd.regime (s : SS_system_dd) (dat : Vec) : Regime :=
  if s.rate dat = 0 then .bolus
  else if 0 < s.ii_ then .truncated
  else .constant

/-- SS_system_vd: variable-amount steady-state system. Same
construction-time constants as the dd variant. -/
structure SS_system_vd where
  f_ : RHS
  ii_ : Scalar
  cmt_ : ℕ
  integrator_ : Integrator

/-- Rate used for regime dispatch in the vd variant: `dat[cmt_ - 1]`. -/
def SS_system_vd.rate (s : SS_system_vd) (dat : Vec) : Scalar :=
  dat.getD (s.cmt_ - 1) 0

/-- Dose amount in the vd variant: the last element of the parameter
vector y. -/
def SS_system_vd.amt (s : SS_system_vd) (y : Vec) : Scalar :=
  y.getD (y.length - 1) 0

/-- Parameters forwarded by the vd variant: y with its last element
stripped. -/
def SS_system_vd.parms (s : SS_system_vd) (y : Vec) : Vec :=
  y.take (y.length - 1)

/-- Bolus branch of SS_system_vd: like the dd bolus but the incremented
quantity is the amount read from y, and the forwarded parameters are y with
its last element stripped. -/
def SS_system_vd.bolus (s : SS_system_vd) (x y dat : Vec) (idat : List ℤ) :
    Vec × List IntCall :=
  (residFrom x
     (s.integrator_ (x.set (s.cmt_ - 1) (x.getD (s.cmt_ - 1) 0 + s.amt y))
       0 s.ii_ (s.parms y) dat idat),
   [⟨x.set (s.cmt_ - 1) (x.getD (s.cmt_ - 1) 0 + s.amt y),
     0, s.ii_, s.parms y, dat, idat⟩])

/-- Constant-infusion branch of SS_system_vd: right-hand-side evaluated
directly at time 0 on the candidate state with the stripped parameters and
the full dat as the rate data; no integrator call. -/
def SS_system_vd.constInfusion (s : SS_system_vd) (x y dat : Vec)
    (idat : List ℤ) : Vec × List IntCall :=
  (s.f_ 0 x (s.parms y) dat idat, [])

/-- The vd evaluation: same dispatch as the dd variant, but the
truncated-infusion branch fails unconditionally. -/
def SS_system_vd.eval (s : SS_system_vd) (x y dat : Vec) (idat : List ℤ) :
    Except SSError (Vec × List IntCall) :=
  if s.rate dat = 0 then .ok (s.bolus x y dat idat)
  else if 0 < s.ii_ then .error .unsupportedRegime
  else .ok (s.constInfusion x y dat idat)

/-- The regime the vd dispatch selects. -/
def SS_system_vd.regime (s : SS_system_vd) (dat : Vec) : Regime :=
  if s.rate dat = 0 then .bolus
  else if 0 < s.ii_ then .truncated
  else .constant

/-- A concrete right-hand-side test double: derivative is componentwise
rate minus state, one entry per compartment. -/
def tF : RHS :=
  fun _t x _y r _i =>
    (List.range x.length).map (fun i => r.getD i 0 - x.getD i 0)

/-- A concrete integrator test double: advances every component by the
requested span. -/
def tIntegrator : Integrator :=
  fun x0 _t0 span _y _r _i => x0.map (fun v => v + span)

/-- A concrete dd system with dosing compartment 1 and a given interval. -/
def sysDD (ii : Scalar) : SS_system_dd :=
  ⟨tF, ii, 1, tIntegrator⟩

/-- A concrete vd system with dosing compartment 1 and a given interval. -/
def sysVD (ii : Scalar) : SS_system_vd :=
  ⟨tF, ii, 1, tIntegrator⟩

/-- Claim C1: for every evaluation in either variant, regime dispatch is
exact on (rate, interdose interval): rate = 0 selects the bolus branch,
rate different from 0 with ii positive selects the truncated-infusions
branch, and rate different from 0 with ii nonpositive selects the
continuous-infusion branch, covering the boundary cases ii = 0 and rate
exactly 0. -/
theorem ss_regime_dispatch_exact (sd : SS_system_dd) (sv : SS_system_vd)
    (x y dat : Vec) (idat : List ℤ) :
    (sd.rate dat = 0 → sd.eval x y dat idat = .ok (sd.bolus x y dat idat)) ∧
    (sd.rate dat ≠ 0 → 0 < sd.ii_ →
      sd.eval x y dat idat = sd.truncInfusion x y dat idat) ∧
    (sd.rate dat ≠ 0 → sd.ii_ ≤ 0 →
      sd.eval x y dat idat = .ok (sd.constInfusion x y dat idat)) ∧
    (sv.rate dat = 0 → sv.eval x y dat idat = .ok (sv.bolus x y dat idat)) ∧
    (sv.rate dat ≠ 0 → 0 < sv.ii_ →
      sv.eval x y dat idat = .error .unsupportedRegime) ∧
    (sv.rate dat ≠ 0 → sv.ii_ ≤ 0 →
      sv.eval x y dat idat = .ok (sv.constInfusion x y dat idat)) := by
  refine ⟨fun h => ?_, fun h hii => ?_, fun h hii => ?_,
    fun h => ?_, fun h hii => ?_, fun h hii => ?_⟩
  · simp [SS_system_dd.eval, h]
  · simp [SS_system_dd.eval, h, hii]
  · simp [SS_system_dd.eval, h, not_lt.mpr hii]
  · simp [SS_system_vd.eval, h]
  · simp [SS_system_vd.eval, h, hii]
  · simp [SS_system_vd.eval, h, not_lt.mpr hii]

/-- Witness for C1: each of the six dispatch facts at a concrete input,
including the boundaries ii = 0 with nonzero rate and rate exactly 0. -/
theorem ss_regime_dispatch_exact_witness :
    ((sysDD 2).eval [1] [2] [0, 5] [] = .ok ((sysDD 2).bolus [1] [2] [0, 5] [])) ∧
    ((sysDD 2).eval [1] [2] [3, 5] [] = (sysDD 2).truncInfusion [1] [2] [3, 5] []) ∧
    ((sysDD 0).eval [1] [2] [3, 5] [] = .ok ((sysDD 0).constInfusion [1] [2] [3, 5] [])) ∧
    ((sysVD 2).eval [1] [2] [0, 5] [] = .ok ((sysVD 2).bolus [1] [2] [0, 5] [])) ∧
    ((sysVD 2).eval [1] [2] [3, 5] [] = .error .unsupportedRegime) ∧
    ((sysVD 0).eval [1] [2] [3, 5] [] = .ok ((sysVD 0).constInfusion [1] [2] [3, 5] [])) :=
  ⟨(ss_regime_dispatch_exact (sysDD 2) (sysVD 2) [1] [2] [0, 5] []).1
      (by simp [sysDD, SS_system_dd.rate, List.getD]),
   (ss_regime_dispatch_exact (sysDD 2) (sysVD 2) [1] [2] [3, 5] []).2.1
      (by norm_num [sysDD, SS_system_dd.rate, List.getD])
      (by norm_num [sysDD]),
   (ss_regime_dispatch_exact (sysDD 0) (sysVD 0) [1] [2] [3, 5] []).2.2.1
      (by norm_num [sysDD, SS_system_dd.rate, List.getD])
      (by norm_num [sysDD]),
   (ss_regime_dispatch_exact (sysDD 2) (sysVD 2) [1] [2] [0, 5] []).2.2.2.1
      (by simp [sysVD, SS_system_vd.rate, List.getD]),
   (ss_regime_dispatch_exact (sysDD 2) (sysVD 2) [1] [2] [3, 5] []).2.2.2.2.1
      (by norm_num [sysVD, SS_system_vd.rate, List.getD])
      (by norm_num [sysVD]),
   (ss_regime_dispatch_exact (sysDD 0) (sysVD 0) [1] [2] [3, 5] []).2.2.2.2.2
      (by norm_num [sysVD, SS_system_vd.rate, List.getD])
      (by norm_num [sysVD])⟩

/-- Under a nonzero dispatch rate and a positive interval, the dd
evaluation is the truncated-infusion branch. -/
lemma dd_eval_trunc (s : SS_system_dd) (x y dat : Vec) (idat : List ℤ)
    (hr : s.rate dat ≠ 0) (hii : 0 < s.ii_) :
    s.eval x y dat idat = s.truncInfusion x y dat idat := by
  simp [SS_system_dd.eval, hr, hii]

/-- When delta = amt / rate is at most ii, the dd truncated-infusion
branch returns the two-call result. -/
lemma dd_truncInfusion_ok (s : SS_system_dd) (x y dat : Vec) (idat : List ℤ)
    (hd : s.amt dat / s.rate dat ≤ s.ii_) :
    s.truncInfusion x y dat idat =
      .ok (residFrom x
             (s.integrator_
               (s.integrator_ x 0 (s.amt dat / s.rate dat) y dat idat)
               0 (s.ii_ - s.amt dat / s.rate dat) y
               (List.replicate dat.length 0) idat),
           [⟨x, 0, s.amt dat / s.rate dat, y, dat, idat⟩,
            ⟨s.integrator_ x 0 (s.amt dat / s.rate dat) y dat idat, 0,
             s.ii_ - s.amt dat / s.rate dat, y,
             List.replicate dat.length 0, idat⟩]) := by
  simp [SS_system_dd.truncInfusion, not_lt.mpr hd]

/-- Claim C2: in the dd truncated-infusion branch with feasible duration
delta = amt / rate at most ii, the evaluation makes exactly the two
recorded integrator calls: first from x over span delta with the original
data as rate input, second from the first result over span ii - delta with
an all-zero rate vector, and the residual is the componentwise difference
of x and the second result. -/
theorem dd_truncated_two_calls (s : SS_system_dd) (x y dat : Vec)
    (idat : List ℤ) (hr : s.rate dat ≠ 0) (hii : 0 < s.ii_)
    (hd : s.amt dat / s.rate dat ≤ s.ii_) :
    s.eval x y dat idat =
      .ok (residFrom x
             (s.integrator_
               (s.integrator_ x 0 (s.amt dat / s.rate dat) y dat idat)
               0 (s.ii_ - s.amt dat / s.rate dat) y
               (List.replicate dat.length 0) idat),
           [⟨x, 0, s.amt dat / s.rate dat, y, dat, idat⟩,
            ⟨s.integrator_ x 0 (s.amt dat / s.rate dat) y dat idat, 0,
             s.ii_ - s.amt dat / s.rate dat, y,
             List.replicate dat.length 0, idat⟩]) := by
  simp [SS_system_dd.eval, SS_system_dd.truncInfusion, hr, hii, not_lt.mpr hd]

/-- Witness for C2: amt 4, rate 2, ii 10 gives delta 2; the two recorded
calls have spans 2 and 8, the second with an all-zero rate vector, and the
residual is x - pred. -/
theorem dd_truncated_two_calls_witness :
    ((sysDD 10).rate [2, 4] ≠ 0) ∧ (0 < (sysDD 10).ii_) ∧
    ((sysDD 10).amt [2, 4] / (sysDD 10).rate [2, 4] ≤ (sysDD 10).ii_) ∧
    (sysDD 10).eval [1] [] [2, 4] [] =
      .ok ([-10], [⟨[1], 0, 2, [], [2, 4], []⟩, ⟨[3], 0, 8, [], [0, 0], []⟩]) := by
  have h1 : (sysDD 10).rate [2, 4] ≠ 0 := by
    norm_num [sysDD, SS_system_dd.rate, List.getD]
  have h2 : (0 : ℚ) < (sysDD 10).ii_ := by norm_num [sysDD]
  have h3 : (sysDD 10).amt [2, 4] / (sysDD 10).rate [2, 4] ≤ (sysDD 10).ii_ := by
    norm_num [sysDD, SS_system_dd.rate, SS_system_dd.amt, List.getD]
  refine ⟨h1, h2, h3,
    (dd_truncated_two_calls (sysDD 10) [1] [] [2, 4] [] h1 h2 h3).trans ?_⟩
  simp [sysDD, SS_system_dd.rate, SS_system_dd.amt, residFrom, tIntegrator,
    List.getD, List.replicate, List.range_succ]
  norm_num

/-- Claim C3: in the dd truncated-infusion branch the evaluation fails if
and only if delta = amt / rate exceeds ii, the failure carries delta and
ii, and delta equal to ii does not fail. -/
theorem dd_truncated_fail_iff (s : SS_system_dd) (x y dat : Vec)
    (idat : List ℤ) (hr : s.rate dat ≠ 0) (hii : 0 < s.ii_) :
    (∀ e, s.eval x y dat idat = .error e ↔
        (s.ii_ < s.amt dat / s.rate dat ∧
         e = .infeasibleInfusion (s.amt dat / s.rate dat) s.ii_)) ∧
    (s.amt dat / s.rate dat = s.ii_ → ∃ r, s.eval x y dat idat = .ok r) := by
  constructor
  · intro e
    by_cases hlt : s.ii_ < s.amt dat / s.rate dat
    · simp [SS_system_dd.eval, SS_system_dd.truncInfusion, hr, hii, hlt,
        eq_comm]
    · simp [SS_system_dd.eval, SS_system_dd.truncInfusion, hr, hii, hlt]
  · intro heq
    exact ⟨_, (dd_eval_trunc s x y dat idat hr hii).trans
      (dd_truncInfusion_ok s x y dat idat (le_of_eq heq))⟩

/-- Witness for C3: amt 10, rate 2, ii 4 gives delta 5 greater than 4, and
the evaluation fails with the error carrying 5 and 4; with amt 8 instead,
delta equals ii and the evaluation returns a residual. -/
theorem dd_truncated_fail_iff_witness :
    ((sysDD 4).rate [2, 10] ≠ 0) ∧ (0 < (sysDD 4).ii_) ∧
    ((sysDD 4).eval [1] [] [2, 10] [] = .error (.infeasibleInfusion 5 4)) ∧
    (∃ r, (sysDD 4).eval [1] [] [2, 8] [] = .ok r) := by
  have h1 : (sysDD 4).rate [2, 10] ≠ 0 := by
    norm_num [sysDD, SS_system_dd.rate, List.getD]
  have h2 : (0 : ℚ) < (sysDD 4).ii_ := by norm_num [sysDD]
  have h1b : (sysDD 4).rate [2, 8] ≠ 0 := by
    norm_num [sysDD, SS_system_dd.rate, List.getD]
  refine ⟨h1, h2,
    ((dd_truncated_fail_iff (sysDD 4) [1] [] [2, 10] [] h1 h2).1
        (.infeasibleInfusion 5 4)).mpr
      ⟨by norm_num [sysDD, SS_system_dd.rate, SS_system_dd.amt, List.getD],
       by norm_num [sysDD, SS_system_dd.rate, SS_system_dd.amt, List.getD]⟩,
    (dd_truncated_fail_iff (sysDD 4) [1] [] [2, 8] [] h1b h2).2
      (by norm_num [sysDD, SS_system_dd.rate, SS_system_dd.amt, List.getD])⟩

/-- Claim C4: every vd evaluation that reaches the truncated-infusion
branch fails unconditionally, for all numeric values of amount, rate and
interval, and returns no residual. -/
theorem vd_truncated_always_fails (s : SS_system_vd) (x y dat : Vec)
    (idat : List ℤ) (hr : s.rate dat ≠ 0) (hii : 0 < s.ii_) :
    s.eval x y dat idat = .error .unsupportedRegime := by
  simp [SS_system_vd.eval, hr, hii]

/-- Witness for C4: even the numerically feasible combination amt 1,
rate 100, ii 1000 fails in the vd variant. -/
theorem vd_truncated_always_fails_witness :
    ((sysVD 1000).rate [100] ≠ 0) ∧ (0 < (sysVD 1000).ii_) ∧
    (sysVD 1000).eval [1] [7, 1] [100] [] = .error .unsupportedRegime := by
  have h1 : (sysVD 1000).rate [100] ≠ 0 := by
    norm_num [sysVD, SS_system_vd.rate, List.getD]
  have h2 : (0 : ℚ) < (sysVD 1000).ii_ := by norm_num [sysVD]
  exact ⟨h1, h2, vd_truncated_always_fails (sysVD 1000) [1] [7, 1] [100] [] h1 h2⟩

/-- Claim C5: in the bolus branch of both variants the evaluation
increments the dosing compartment of the candidate state by the dose
amount, makes one integrator call over a single span of length ii, and
returns the componentwise difference; the dd variant reads the amount from
the last element of the data vector, while the vd variant reads it from
the last element of y and forwards y with its last element stripped. -/
theorem ss_bolus_both_variants (sd : SS_system_dd) (sv : SS_system_vd)
    (x y dat : Vec) (idat : List ℤ)
    (hd : sd.rate dat = 0) (hv : sv.rate dat = 0) :
    sd.eval x y dat idat =
      .ok (residFrom x
             (sd.integrator_
               (x.set (sd.cmt_ - 1)
                 (x.getD (sd.cmt_ - 1) 0 + dat.getD (dat.length - 1) 0))
               0 sd.ii_ y dat idat),
           [⟨x.set (sd.cmt_ - 1)
               (x.getD (sd.cmt_ - 1) 0 + dat.getD (dat.length - 1) 0),
             0, sd.ii_, y, dat, idat⟩]) ∧
    sv.eval x y dat idat =
      .ok (residFrom x
             (sv.integrator_
               (x.set (sv.cmt_ - 1)
                 (x.getD (sv.cmt_ - 1) 0 + y.getD (y.length - 1) 0))
               0 sv.ii_ (y.take (y.length - 1)) dat idat),
           [⟨x.set (sv.cmt_ - 1)
               (x.getD (sv.cmt_ - 1) 0 + y.getD (y.length - 1) 0),
             0, sv.ii_, y.take (y.length - 1), dat, idat⟩]) := by
  constructor
  · simp [SS_system_dd.eval, hd, SS_system_dd.bolus, SS_system_dd.amt]
  · simp [SS_system_vd.eval, hv, SS_system_vd.bolus, SS_system_vd.amt,
      SS_system_vd.parms]

/-- Witness for C5: concrete bolus evaluations in both variants at rate 0;
the dd amount is the trailing data element 5, the vd amount is the
trailing parameter element 1 with parameters [7] forwarded. -/
theorem ss_bolus_both_variants_witness :
    ((sysDD 2).rate [0, 5] = 0) ∧ ((sysVD 2).rate [0, 5] = 0) ∧
    (sysDD 2).eval [1] [7, 1] [0, 5] [] =
      .ok (residFrom [1]
             ((sysDD 2).integrator_ ([1].set 0 (([1].getD 0 0) + 5))
               0 (sysDD 2).ii_ [7, 1] [0, 5] []),
           [⟨[1].set 0 (([1].getD 0 0) + 5), 0, (sysDD 2).ii_, [7, 1], [0, 5], []⟩]) ∧
    (sysVD 2).eval [1] [7, 1] [0, 5] [] =
      .ok (residFrom [1]
             ((sysVD 2).integrator_ ([1].set 0 (([1].getD 0 0) + 1))
               0 (sysVD 2).ii_ [7] [0, 5] []),
           [⟨[1].set 0 (([1].getD 0 0) + 1), 0, (sysVD 2).ii_, [7], [0, 5], []⟩]) := by
  have hd : (sysDD 2).rate [0, 5] = 0 := by
    simp [sysDD, SS_system_dd.rate, List.getD]
  have hv : (sysVD 2).rate [0, 5] = 0 := by
    simp [sysVD, SS_system_vd.rate, List.getD]
  have h := ss_bolus_both_variants (sysDD 2) (sysVD 2) [1] [7, 1] [0, 5] [] hd hv
  refine ⟨hd, hv, h.1.trans ?_, h.2.trans ?_⟩
  · norm_num [sysDD, List.getD]
  · norm_num [sysVD, List.getD]

/-- Claim C6: in the continuous-infusion branch of both variants the
residual is the right-hand-side evaluated at time 0 on the candidate
state (dd with the rate vector excluding the trailing amount, vd with the
stripped parameters and dat as rate data) and the integrator is never
invoked, as the empty call trace records. -/
theorem ss_const_infusion_no_integrator (sd : SS_system_dd)
    (sv : SS_system_vd) (x y dat : Vec) (idat : List ℤ)
    (hd : sd.rate dat ≠ 0) (hdii : sd.ii_ ≤ 0)
    (hv : sv.rate dat ≠ 0) (hvii : sv.ii_ ≤ 0) :
    sd.eval x y dat idat =
      .ok (sd.f_ 0 x y (dat.take (dat.length - 1)) idat, []) ∧
    sv.eval x y dat idat =
      .ok (sv.f_ 0 x (y.take (y.length - 1)) dat idat, []) := by
  constructor
  · simp [SS_system_dd.eval, hd, not_lt.mpr hdii, SS_system_dd.constInfusion]
  · simp [SS_system_vd.eval, hv, not_lt.mpr hvii, SS_system_vd.constInfusion,
      SS_system_vd.parms]

/-- Witness for C6: concrete continuous-infusion evaluations in both
variants at ii = 0 and nonzero rate, with empty call traces. -/
theorem ss_const_infusion_no_integrator_witness :
    ((sysDD 0).rate [3] ≠ 0) ∧ ((sysDD 0).ii_ ≤ 0) ∧
    ((sysVD 0).rate [3] ≠ 0) ∧ ((sysVD 0).ii_ ≤ 0) ∧
    (sysDD 0).eval [1, 2] [9, 5] [3] [] =
      .ok ((sysDD 0).f_ 0 [1, 2] [9, 5] [] [], []) ∧
    (sysVD 0).eval [1, 2] [9, 5] [3] [] =
      .ok ((sysVD 0).f_ 0 [1, 2] [9] [3] [], []) := by
  have hd : (sysDD 0).rate [3] ≠ 0 := by
    norm_num [sysDD, SS_system_dd.rate, List.getD]
  have hdii : (sysDD 0).ii_ ≤ 0 := by norm_num [sysDD]
  have hv : (sysVD 0).rate [3] ≠ 0 := by
    norm_num [sysVD, SS_system_vd.rate, List.getD]
  have hvii : (sysVD 0).ii_ ≤ 0 := by norm_num [sysVD]
  have h := ss_const_infusion_no_integrator (sysDD 0) (sysVD 0)
    [1, 2] [9, 5] [3] [] hd hdii hv hvii
  exact ⟨hd, hdii, hv, hvii, h.1, h.2⟩

/-- Counterexample for C7: a dd bolus evaluation returns a residual and
its call trace has exactly one integrator invocation, so it is false that
every residual-returning evaluation performs zero or two invocations. -/
theorem ss_call_count_counterexample :
    (sysDD 2).eval [1] [] [0, 5] [] =
      .ok ([-7], [⟨[6], 0, 2, [], [0, 5], []⟩]) ∧
    ([(⟨[6], 0, 2, [], [0, 5], []⟩ : IntCall)]).length = 1 := by
  constructor
  · simp [sysDD, SS_system_dd.eval, SS_system_dd.rate, SS_system_dd.bolus,
      SS_system_dd.amt, residFrom, tIntegrator, tF, List.getD,
      List.range_succ]
    norm_num
  · rfl

/-- Claim C7 as amended: every residual-returning evaluation in either
variant performs zero, one, or two integrator invocations. -/
theorem ss_call_count_at_most_two (sd : SS_system_dd) (sv : SS_system_vd)
    (x y dat : Vec) (idat : List ℤ) :
    (∀ r tr, sd.eval x y dat idat = .ok (r, tr) →
        tr.length = 0 ∨ tr.length = 1 ∨ tr.length = 2) ∧
    (∀ r tr, sv.eval x y dat idat = .ok (r, tr) →
        tr.length = 0 ∨ tr.length = 1 ∨ tr.length = 2) := by
  refine ⟨fun r tr h => ?_, fun r tr h => ?_⟩
  · by_cases h0 : sd.rate dat = 0
    · simp only [SS_system_dd.eval, if_pos h0, Except.ok.injEq,
        SS_system_dd.bolus] at h
      injection h with hfst hsnd
      rw [← hsnd]
      simp
    · by_cases h1 : 0 < sd.ii_
      · simp only [SS_system_dd.eval, if_neg h0, if_pos h1,
          SS_system_dd.truncInfusion] at h
        by_cases h2 : sd.ii_ < sd.amt dat / sd.rate dat
        · rw [if_pos h2] at h
          cases h
        · rw [if_neg h2, Except.ok.injEq] at h
          injection h with hfst hsnd
          rw [← hsnd]
          simp
      · simp only [SS_system_dd.eval, if_neg h0, if_neg h1,
          Except.ok.injEq, SS_system_dd.constInfusion] at h
        injection h with hfst hsnd
        rw [← hsnd]
        simp
  · by_cases h0 : sv.rate dat = 0
    · simp only [SS_system_vd.eval, if_pos h0, Except.ok.injEq,
        SS_system_vd.bolus] at h
      injection h with hfst hsnd
      rw [← hsnd]
      simp
    · by_cases h1 : 0 < sv.ii_
      · simp only [SS_system_vd.eval, if_neg h0, if_pos h1] at h
        cases h
      · simp only [SS_system_vd.eval, if_neg h0, if_neg h1,
          Except.ok.injEq, SS_system_vd.constInfusion] at h
        injection h with hfst hsnd
        rw [← hsnd]
        simp

/-- Witness for C7 as amended: at a concrete bolus input the trace length
is among zero, one and two (it is one). -/
theorem ss_call_count_at_most_two_witness :
    ([(⟨[6], 0, 2, [], [0, 5], []⟩ : IntCall)]).length = 0 ∨
    ([(⟨[6], 0, 2, [], [0, 5], []⟩ : IntCall)]).length = 1 ∨
    ([(⟨[6], 0, 2, [], [0, 5], []⟩ : IntCall)]).length = 2 :=
  (ss_call_count_at_most_two (sysDD 2) (sysVD 2) [1] [] [0, 5] []).1
    [-7] [⟨[6], 0, 2, [], [0, 5], []⟩]
    (by simp [sysDD, SS_system_dd.eval, SS_system_dd.rate, SS_system_dd.bolus,
          SS_system_dd.amt, residFrom, tIntegrator, tF, List.getD,
          List.range_succ]
        norm_num)

/-- The componentwise residual always has the candidate-state length. -/
lemma residFrom_length (x pred : Vec) : (residFrom x pred).length = x.length := by
  simp [residFrom]

/-- Claim C8: whenever an evaluation in either variant returns normally
and the bound right-hand-side function returns one derivative entry per
compartment, the residual length equals the candidate-state length,
including in the continuous-infusion branch where the residual is the
right-hand-side output. -/
theorem ss_residual_length (sd : SS_system_dd) (sv : SS_system_vd)
    (x y dat : Vec) (idat : List ℤ)
    (hfd : ∀ t st p rv i, (sd.f_ t st p rv i).length = st.length)
    (hfv : ∀ t st p rv i, (sv.f_ t st p rv i).length = st.length) :
    (∀ r tr, sd.eval x y dat idat = .ok (r, tr) → r.length = x.length) ∧
    (∀ r tr, sv.eval x y dat idat = .ok (r, tr) → r.length = x.length) := by
  refine ⟨fun r tr h => ?_, fun r tr h => ?_⟩
  · by_cases h0 : sd.rate dat = 0
    · simp only [SS_system_dd.eval, if_pos h0, Except.ok.injEq,
        SS_system_dd.bolus] at h
      injection h with hfst hsnd
      rw [← hfst, residFrom_length]
    · by_cases h1 : 0 < sd.ii_
      · simp only [SS_system_dd.eval, if_neg h0, if_pos h1,
          SS_system_dd.truncInfusion] at h
        by_cases h2 : sd.ii_ < sd.amt dat / sd.rate dat
        · rw [if_pos h2] at h
          cases h
        · rw [if_neg h2, Except.ok.injEq] at h
          injection h with hfst hsnd
          rw [← hfst, residFrom_length]
      · simp only [SS_system_dd.eval, if_neg h0, if_neg h1,
          Except.ok.injEq, SS_system_dd.constInfusion] at h
        injection h with hfst hsnd
        rw [← hfst, hfd]
  · by_cases h0 : sv.rate dat = 0
    · simp only [SS_system_vd.eval, if_pos h0, Except.ok.injEq,
        SS_system_vd.bolus] at h
      injection h with hfst hsnd
      rw [← hfst, residFrom_length]
    · by_cases h1 : 0 < sv.ii_
      · simp only [SS_system_vd.eval, if_neg h0, if_pos h1] at h
        cases h
      · simp only [SS_system_vd.eval, if_neg h0, if_neg h1,
          Except.ok.injEq, SS_system_vd.constInfusion] at h
        injection h with hfst hsnd
        rw [← hfst, hfv]

/-- Witness for C8: at a concrete continuous-infusion input the returned
residual has the same length as the candidate state. -/
theorem ss_residual_length_witness :
    ([-1, -2] : Vec).length = ([1, 2] : Vec).length :=
  (ss_residual_length (sysDD 0) (sysVD 0) [1, 2] [] [3] []
      (by intro t st p rv i; simp [sysDD, tF])
      (by intro t st p rv i; simp [sysVD, tF])).1
    [-1, -2] []
    (by simp [sysDD, SS_system_dd.eval, SS_system_dd.rate,
          SS_system_dd.constInfusion, tF, List.getD, residFrom,
          List.range_succ])

/-- Claim C9: the evaluators are stateless and deterministic: an
evaluation is a pure function of the four construction-time fields and the
call arguments, so any two systems with equal fields evaluate equally on
every input. -/
theorem ss_evaluator_deterministic (s1 s2 : SS_system_dd)
    (v1 v2 : SS_system_vd)
    (hf : s1.f_ = s2.f_) (hii : s1.ii_ = s2.ii_) (hc : s1.cmt_ = s2.cmt_)
    (hint : s1.integrator_ = s2.integrator_)
    (gf : v1.f_ = v2.f_) (gii : v1.ii_ = v2.ii_) (gc : v1.cmt_ = v2.cmt_)
    (gint : v1.integrator_ = v2.integrator_) :
    ∀ x y dat idat, s1.eval x y dat idat = s2.eval x y dat idat ∧
      v1.eval x y dat idat = v2.eval x y dat idat := by
  obtain ⟨f1, i1, c1, g1⟩ := s1
  obtain ⟨f2, i2, c2, g2⟩ := s2
  obtain ⟨vf1, vi1, vc1, vg1⟩ := v1
  obtain ⟨vf2, vi2, vc2, vg2⟩ := v2
  cases hf; cases hii; cases hc; cases hint
  cases gf; cases gii; cases gc; cases gint
  exact fun x y dat idat => ⟨rfl, rfl⟩

/-- Witness for C9: two evaluations with identical construction fields and
identical arguments return the same result. -/
theorem ss_evaluator_deterministic_witness :
    (sysDD 2).eval [1] [7] [0, 5] [] = (sysDD 2).eval [1] [7] [0, 5] [] ∧
    (sysVD 2).eval [1] [7] [0, 5] [] = (sysVD 2).eval [1] [7] [0, 5] [] :=
  ss_evaluator_deterministic (sysDD 2) (sysDD 2) (sysVD 2) (sysVD 2)
    rfl rfl rfl rfl rfl rfl rfl rfl [1] [7] [0, 5] []

/-- Claim C10: in both variants the dispatch rate is exactly the data
entry at the dosing-compartment index; two data vectors agreeing there
select the same regime, and a zero dosing-compartment rate selects the
bolus branch even when other compartments have nonzero rates. -/
theorem ss_dispatch_rate_source (sd : SS_system_dd) (sv : SS_system_vd)
    (x y dat dat2 : Vec) (idat : List ℤ) :
    (sd.rate dat = dat.getD (sd.cmt_ - 1) 0) ∧
    (sv.rate dat = dat.getD (sv.cmt_ - 1) 0) ∧
    (dat.getD (sd.cmt_ - 1) 0 = dat2.getD (sd.cmt_ - 1) 0 →
      sd.regime dat = sd.regime dat2) ∧
    (dat.getD (sv.cmt_ - 1) 0 = dat2.getD (sv.cmt_ - 1) 0 →
      sv.regime dat = sv.regime dat2) ∧
    (dat.getD (sd.cmt_ - 1) 0 = 0 →
      sd.eval x y dat idat = .ok (sd.bolus x y dat idat)) ∧
    (dat.getD (sv.cmt_ - 1) 0 = 0 →
      sv.eval x y dat idat = .ok (sv.bolus x y dat idat)) := by
  refine ⟨rfl, rfl, fun h => ?_, fun h => ?_, fun h => ?_, fun h => ?_⟩
  · simp only [SS_system_dd.regime, SS_system_dd.rate]
    simp only [h]
  · simp only [SS_system_vd.regime, SS_system_vd.rate]
    simp only [h]
  · simp only [SS_system_dd.eval, SS_system_dd.rate]
    rw [if_pos h]
  · simp only [SS_system_vd.eval, SS_system_vd.rate]
    rw [if_pos h]

/-- Witness for C10: with a zero rate in dosing compartment 1 and nonzero
rates elsewhere, both variants still take the bolus branch, and two data
vectors agreeing only in compartment 1 select the same regime. -/
theorem ss_dispatch_rate_source_witness :
    (([0, 7, 9] : Vec).getD 0 0 = ([0, 1, 2] : Vec).getD 0 0) ∧
    ((sysDD 2).regime [0, 7, 9] = (sysDD 2).regime [0, 1, 2]) ∧
    ((sysVD 2).regime [0, 7, 9] = (sysVD 2).regime [0, 1, 2]) ∧
    ((sysDD 2).eval [1] [7] [0, 7, 9] [] =
      .ok ((sysDD 2).bolus [1] [7] [0, 7, 9] [])) ∧
    ((sysVD 2).eval [1] [7] [0, 7, 9] [] =
      .ok ((sysVD 2).bolus [1] [7] [0, 7, 9] [])) := by
  have hagree : ([0, 7, 9] : Vec).getD 0 0 = ([0, 1, 2] : Vec).getD 0 0 := by
    simp [List.getD]
  have h := ss_dispatch_rate_source (sysDD 2) (sysVD 2) [1] [7]
    [0, 7, 9] [0, 1, 2] []
  exact ⟨hagree,
    h.2.2.1 hagree,
    h.2.2.2.1 hagree,
    h.2.2.2.2.1 (by simp [sysDD, List.getD]),
    h.2.2.2.2.2 (by simp [sysVD, List.getD])⟩
